import Mathlib

/-!
Shallow embedding of `rqalpha/mod/rqalpha_mod_sys_accounts/account_model/future_account.py`
(class `FutureAccount`).  Monetary amounts and quantities are embedded as
rationals; the external `FuturePosition` class (not part of this file's
source) is an abstract record of the fields the account code reads, and its
mutating operations (`apply_trade`, `apply_settlement`, `set_state`) are
abstract parameters.
-/

namespace RQ

/-- `rqalpha.const.SIDE` (the two values used by `FutureAccount.order`). -/
inductive Side where
  | BUY
  | SELL
  deriving DecidableEq, Repr

/-- `rqalpha.const.POSITION_EFFECT` (the three values used here). -/
inductive PositionEffect where
  | OPEN
  | CLOSE
  | CLOSE_TODAY
  deriving DecidableEq, Repr

/-- The argument tuple `FutureAccount.order` passes to the api-level `order(...)`
call for each child order: `(order_book_id, amount, side, position_effect, style)`.
The opaque order style is embedded as a `Nat` tag. -/
structure ChildOrder where
  order_book_id : String
  quantity : ℚ
  side : Side
  position_effect : PositionEffect
  style : ℕ
  deriving DecidableEq, Repr

/-- The fields of the external `FuturePosition` object that `FutureAccount`
reads: the four direction/age quantity buckets, the derived `buy_quantity` /
`sell_quantity` totals, `margin`, `holding_pnl`, the resolved `margin_rate`
and the de-listed flag. -/
structure Position where
  buy_old_quantity : ℚ
  buy_today_quantity : ℚ
  sell_old_quantity : ℚ
  sell_today_quantity : ℚ
  buy_quantity : ℚ
  sell_quantity : ℚ
  margin : ℚ
  holding_pnl : ℚ
  margin_rate : ℚ
  de_listed : Bool
  deriving DecidableEq, Repr

/-- A trade event payload: `exec_id`, `order_book_id`, `position_effect`,
`last_quantity` (fill quantity) and `transaction_cost`. -/
structure Trade where
  exec_id : String
  order_book_id : String
  position_effect : PositionEffect
  last_quantity : ℚ
  transaction_cost : ℚ
  deriving DecidableEq, Repr

/-- The fields of an rqalpha `Order` object read by `FutureAccount`:
quantities, the frozen price used for the margin reservation, the position
effect, and the `is_active()` flag. -/
structure Order where
  order_book_id : String
  quantity : ℚ
  filled_quantity : ℚ
  unfilled_quantity : ℚ
  frozen_price : ℚ
  position_effect : PositionEffect
  active : Bool
  deriving DecidableEq, Repr

/-- The collaborator oracles reached through `Environment.get_instance()`:
the global margin multiplier, per-instrument contract multiplier and margin
rate, and the transaction-cost oracle `get_order_transaction_cost`. -/
structure Env where
  margin_multiplier : ℚ
  contract_multiplier : String → ℚ
  margin_rate : String → ℚ
  order_transaction_cost : Order → ℚ

/-- `margin_of(order_book_id, quantity, price)` from the source:
`quantity * contract_multiplier * price * margin_rate * margin_multiplier`. -/
def margin_of (env : Env) (order_book_id : String) (quantity price : ℚ) : ℚ :=
  quantity * env.contract_multiplier order_book_id * price *
    env.margin_rate order_book_id * env.margin_multiplier

/-- `FutureAccount._frozen_cash_of_order`: margin reservation when the order
opens a position, plus the estimated transaction cost. -/
def frozen_cash_of_order (env : Env) (o : Order) : ℚ :=
  (if o.position_effect = PositionEffect.OPEN then
    margin_of env o.order_book_id o.quantity o.frozen_price
  else 0) + env.order_transaction_cost o

/-- The mutable account state: `_total_cash`, `_frozen_cash`, the position
collection (an insertion-ordered id → position map, embedded as an
association list) and `_backward_trade_set` (the replay guard). -/
structure FutureAccount where
  total_cash : ℚ
  frozen_cash : ℚ
  positions : List (String × Position)
  backward_trade_set : List String
  deriving DecidableEq, Repr

/-- Account-level `margin` property: sum of per-position margins. -/
def marginSum (ps : List (String × Position)) : ℚ :=
  (ps.map (fun e => e.2.margin)).sum

/-- Account-level `holding_pnl` property: sum of per-position holding pnls. -/
def holdingPnlSum (ps : List (String × Position)) : ℚ :=
  (ps.map (fun e => e.2.holding_pnl)).sum

/-- `FutureAccount.total_value = _total_cash + margin + holding_pnl`. -/
def total_value (a : FutureAccount) : ℚ :=
  a.total_cash + marginSum a.positions + holdingPnlSum a.positions

/-- `FutureAccount.order(order_book_id, quantity, style, target)`: decompose a
signed net quantity (or a target in target mode) into child orders with the
close-old → close-today → open precedence, mirrored per direction.  The
position is passed explicitly (the source reads `self.positions[id]`). -/
def order_decompose (order_book_id : String) (position : Position) (quantity0 : ℚ)
    (style : ℕ) (target : Bool) : List ChildOrder :=
  let quantity :=
    if target then quantity0 - position.buy_quantity + position.sell_quantity else quantity0
  if 0 < quantity then
    let orders1 : List ChildOrder :=
      if 0 < position.sell_old_quantity then
        [⟨order_book_id, min quantity position.sell_old_quantity,
          Side.BUY, PositionEffect.CLOSE, style⟩]
      else []
    let quantity1 :=
      if 0 < position.sell_old_quantity then quantity - position.sell_old_quantity else quantity
    if quantity1 ≤ 0 then orders1
    else
      let orders2 := orders1 ++
        (if 0 < position.sell_today_quantity then
          [⟨order_book_id, min quantity1 position.sell_today_quantity,
            Side.BUY, PositionEffect.CLOSE_TODAY, style⟩]
        else [])
      let quantity2 :=
        if 0 < position.sell_today_quantity then quantity1 - position.sell_today_quantity
        else quantity1
      if quantity2 ≤ 0 then orders2
      else orders2 ++ [⟨order_book_id, quantity2, Side.BUY, PositionEffect.OPEN, style⟩]
  else
    let quantityn := -quantity
    let orders1 : List ChildOrder :=
      if 0 < position.buy_old_quantity then
        [⟨order_book_id, min quantityn position.buy_old_quantity,
          Side.SELL, PositionEffect.CLOSE, style⟩]
      else []
    let quantity1 :=
      if 0 < position.buy_old_quantity then
        quantityn - min quantityn position.buy_old_quantity
      else quantityn
    if quantity1 ≤ 0 then orders1
    else
      let orders2 := orders1 ++
        (if 0 < position.buy_today_quantity then
          [⟨order_book_id, min quantity1 position.buy_today_quantity,
            Side.SELL, PositionEffect.CLOSE_TODAY, style⟩]
        else [])
      let quantity2 :=
        if 0 < position.buy_today_quantity then quantity1 - position.buy_today_quantity
        else quantity1
      if quantity2 ≤ 0 then orders2
      else orders2 ++ [⟨order_book_id, quantity2, Side.SELL, PositionEffect.OPEN, style⟩]

/-- The spec's wording of the buying-direction decomposition: a CLOSE leg of
`min(q, sell_old)` when `sell_old > 0`, then a CLOSE_TODAY leg of
`min(remaining, sell_today)` when `remaining > 0` and `sell_today > 0`, then
an OPEN leg of the remainder only if remaining is still positive. -/
def orderSpecBuy (order_book_id : String) (position : Position) (q : ℚ)
    (style : ℕ) : List ChildOrder :=
  let closeLeg : List ChildOrder :=
    if 0 < position.sell_old_quantity then
      [⟨order_book_id, min q position.sell_old_quantity,
        Side.BUY, PositionEffect.CLOSE, style⟩]
    else []
  let r1 := q - min q position.sell_old_quantity
  let closeTodayLeg : List ChildOrder :=
    if 0 < r1 ∧ 0 < position.sell_today_quantity then
      [⟨order_book_id, min r1 position.sell_today_quantity,
        Side.BUY, PositionEffect.CLOSE_TODAY, style⟩]
    else []
  let r2 := r1 - min r1 position.sell_today_quantity
  let openLeg : List ChildOrder :=
    if 0 < r2 then [⟨order_book_id, r2, Side.BUY, PositionEffect.OPEN, style⟩] else []
  closeLeg ++ closeTodayLeg ++ openLeg

/-- The spec's wording of the selling-direction decomposition (mirror of
`orderSpecBuy` over the buy buckets); `q` is the positive sell intent. -/
def orderSpecSell (order_book_id : String) (position : Position) (q : ℚ)
    (style : ℕ) : List ChildOrder :=
  let closeLeg : List ChildOrder :=
    if 0 < position.buy_old_quantity then
      [⟨order_book_id, min q position.buy_old_quantity,
        Side.SELL, PositionEffect.CLOSE, style⟩]
    else []
  let r1 := q - min q position.buy_old_quantity
  let closeTodayLeg : List ChildOrder :=
    if 0 < r1 ∧ 0 < position.buy_today_quantity then
      [⟨order_book_id, min r1 position.buy_today_quantity,
        Side.SELL, PositionEffect.CLOSE_TODAY, style⟩]
    else []
  let r2 := r1 - min r1 position.buy_today_quantity
  let openLeg : List ChildOrder :=
    if 0 < r2 then [⟨order_book_id, r2, Side.SELL, PositionEffect.OPEN, style⟩] else []
  closeLeg ++ closeTodayLeg ++ openLeg

/-- `self._positions.get_or_create(order_book_id)`: look the id up in the
insertion-ordered map, creating a fresh position (`newPos`) at the end when
absent.  Returns the updated map together with the position found. -/
def getOrCreate (newPos : String → Position) (ps : List (String × Position))
    (order_book_id : String) : List (String × Position) × Position :=
  match ps.lookup order_book_id with
  | some p => (ps, p)
  | none => (ps ++ [(order_book_id, newPos order_book_id)], newPos order_book_id)

/-- Write back a mutated position under its id (the Python code mutates the
position object in place inside the map). -/
def setPos (ps : List (String × Position)) (order_book_id : String) (p : Position) :
    List (String × Position) :=
  ps.map (fun e => if e.1 = order_book_id then (order_book_id, p) else e)

/-- `FutureAccount._apply_trade(trade, order=None)`.  `posApply` is the
external `FuturePosition.apply_trade`, returning the mutated position and the
realized cash delta; `newPos` models position creation.  A trade whose
`exec_id` is already in the replay guard is a no-op; otherwise the position
is updated, cash adjusted by `delta_cash - transaction_cost`, the exec id
recorded, and — when the originating order is supplied — frozen cash
released (proportionally if the fill is partial). -/
def apply_trade (posApply : Position → Trade → Position × ℚ)
    (newPos : String → Position) (env : Env)
    (t : Trade) (ord : Option Order) (a : FutureAccount) : FutureAccount :=
  if t.exec_id ∈ a.backward_trade_set then a
  else
    let pr := getOrCreate newPos a.positions t.order_book_id
    let r := posApply pr.2 t
    let frozen :=
      match ord with
      | none => a.frozen_cash
      | some o =>
        if t.last_quantity ≠ o.quantity then
          a.frozen_cash - t.last_quantity / o.quantity * frozen_cash_of_order env o
        else
          a.frozen_cash - frozen_cash_of_order env o
    { total_cash := a.total_cash - t.transaction_cost + r.2
      frozen_cash := frozen
      positions := setPos pr.1 t.order_book_id r.1
      backward_trade_set := a.backward_trade_set ++ [t.exec_id] }

/-- Fold `_apply_trade(t)` (with no originating order) over a trade list. -/
def applyTrades (posApply : Position → Trade → Position × ℚ)
    (newPos : String → Position) (env : Env)
    (ts : List Trade) (a : FutureAccount) : FutureAccount :=
  ts.foldl (fun s t => apply_trade posApply newPos env t none s) a

/-- The first loop of `fast_forward`: scan the trades, skipping ids already in
the replay guard, applying OPEN trades immediately and collecting the others
into `close_trades`. -/
def ffScan (posApply : Position → Trade → Position × ℚ)
    (newPos : String → Position) (env : Env)
    (ts : List Trade) (acc : FutureAccount × List Trade) : FutureAccount × List Trade :=
  ts.foldl
    (fun acc t =>
      if t.exec_id ∈ acc.1.backward_trade_set then acc
      else if t.position_effect = PositionEffect.OPEN then
        (apply_trade posApply newPos env t none acc.1, acc.2)
      else (acc.1, acc.2 ++ [t]))
    acc

/-- `FutureAccount.fast_forward(orders, trades)`: replay the trades (opens in
the first pass, collected closes in the second), then recompute
`_frozen_cash` from scratch as the sum of reservations over active orders. -/
def fast_forward (posApply : Position → Trade → Position × ℚ)
    (newPos : String → Position) (env : Env)
    (orders : List Order) (trades : List Trade) (a : FutureAccount) : FutureAccount :=
  let scanned := ffScan posApply newPos env trades (a, [])
  let a1 := applyTrades posApply newPos env scanned.2 scanned.1
  { a1 with
    frozen_cash := ((orders.filter (fun o => o.active)).map (frozen_cash_of_order env)).sum }

/-- The settlement roll over the position collection: de-listed positions with
exposure are force-removed, flat positions are removed, the rest are rolled
forward by the external `FuturePosition.apply_settlement` (`applySettle`). -/
def settleRoll (applySettle : Position → Position)
    (ps : List (String × Position)) : List (String × Position) :=
  ps.filterMap (fun e =>
    if e.2.de_listed ∧ e.2.buy_quantity + e.2.sell_quantity ≠ 0 then none
    else if e.2.buy_quantity = 0 ∧ e.2.sell_quantity = 0 then none
    else some (e.1, applySettle e.2))

/-- `FutureAccount._settlement(event)`: snapshot pre-roll `total_value`, roll
the positions, re-derive `_total_cash = total_value - margin - holding_pnl`,
wipe out on insolvency when forced liquidation is enabled, and clear the
replay guard. -/
def settlement (applySettle : Position → Position) (forced_liquidation : Bool)
    (a : FutureAccount) : FutureAccount :=
  let tv := total_value a
  let rolled := settleRoll applySettle a.positions
  let a1 : FutureAccount :=
    { total_cash := tv - marginSum rolled - holdingPnlSum rolled
      frozen_cash := a.frozen_cash
      positions := rolled
      backward_trade_set := a.backward_trade_set }
  let a2 :=
    if tv ≤ 0 ∧ forced_liquidation then
      { a1 with positions := [], total_cash := 0 }
    else a1
  { a2 with backward_trade_set := [] }

/-- An order-lifecycle event payload: the account it is addressed to
(identified by id) and the order. -/
structure OrderEvent where
  account_id : String
  order : Order
  deriving DecidableEq, Repr

/-- `FutureAccount._on_order_pending_new`: reserve the order's frozen cash
when the event is addressed to this account. -/
def on_order_pending_new (env : Env) (self_id : String) (e : OrderEvent)
    (a : FutureAccount) : FutureAccount :=
  if self_id ≠ e.account_id then a
  else { a with frozen_cash := a.frozen_cash + frozen_cash_of_order env e.order }

/-- `FutureAccount._on_order_unsolicited_update` (also registered for
ORDER_CREATION_REJECT and ORDER_CANCELLATION_PASS): release the unfilled
fraction of the reservation if the order is partly filled, else the full
reservation. -/
def on_order_unsolicited_update (env : Env) (self_id : String) (e : OrderEvent)
    (a : FutureAccount) : FutureAccount :=
  if self_id ≠ e.account_id then a
  else if e.order.filled_quantity ≠ 0 then
    { a with frozen_cash :=
        a.frozen_cash -
          e.order.unfilled_quantity / e.order.quantity * frozen_cash_of_order env e.order }
  else
    { a with frozen_cash := a.frozen_cash - frozen_cash_of_order env e.order }

/-- One entry of the `positions` map in a `get_state` snapshot: the recorded
margin rate, when present, and the position that
`get_or_create(id).set_state(v)` reconstructs (the external
`FuturePosition.set_state` is embedded as the reconstructed value itself). -/
structure PosSnapshot where
  snap_margin_rate : Option ℚ
  restored : Position
  deriving DecidableEq, Repr

/-- A `get_state` snapshot of the account. -/
structure AccountSnapshot where
  frozen_cash : ℚ
  total_cash : ℚ
  backward_trade_set : List String
  positions : List (String × PosSnapshot)
  deriving DecidableEq, Repr

/-- The per-position contribution to `margin_changed` in `set_state`: when the
snapshot records a margin rate differing from the resolved one by more than
1e-6, pro-rate the stored margin to the new rate. -/
def marginChangeOf (e : String × PosSnapshot) : ℚ :=
  match e.2.snap_margin_rate with
  | some r =>
    if 1/1000000 < |r - e.2.restored.margin_rate| then
      e.2.restored.margin * (r - e.2.restored.margin_rate) / e.2.restored.margin_rate
    else 0
  | none => 0

/-- `FutureAccount.set_state(state)`: restore `_frozen_cash` and the replay
guard, rebuild the position collection from the snapshot, and set
`_total_cash` to the snapshot's cash plus the accumulated margin change. -/
def set_state (snap : AccountSnapshot) : FutureAccount :=
  { total_cash := snap.total_cash + (snap.positions.map marginChangeOf).sum
    frozen_cash := snap.frozen_cash
    positions := snap.positions.map (fun e => (e.1, e.2.restored))
    backward_trade_set := snap.backward_trade_set }

/-- Whether a snapshot entry records a margin rate differing from the resolved
one by more than the 1e-6 tolerance (the claim's side condition). -/
def snapRateDiffers (e : String × PosSnapshot) : Bool :=
  match e.2.snap_margin_rate with
  | some r => decide ((1:ℚ)/1000000 < |r - e.2.restored.margin_rate|)
  | none => false

/-- The margin difference pro-rated to the new rate, as the claim words it:
`position.margin * (snapshot_rate - resolved_rate) / resolved_rate`. -/
def snapProRate (e : String × PosSnapshot) : ℚ :=
  match e.2.snap_margin_rate with
  | some r => e.2.restored.margin * (r - e.2.restored.margin_rate) / e.2.restored.margin_rate
  | none => 0

/-- The trades of a batch carrying an OPEN position effect, in arrival
order. -/
def openTrades (ts : List Trade) : List Trade :=
  ts.filter (fun t => t.position_effect = PositionEffect.OPEN)

/-- The trades of a batch carrying a CLOSE or CLOSE_TODAY position effect, in
arrival order. -/
def closeTrades (ts : List Trade) : List Trade :=
  ts.filter (fun t => ¬ t.position_effect = PositionEffect.OPEN)

/-! ### Concrete sample values -/

/-- A concrete environment: unit multipliers, 10% margin rate, flat fee 3. -/
def env0 : Env where
  margin_multiplier := 1
  contract_multiplier := fun _ => 1
  margin_rate := fun _ => 1/10
  order_transaction_cost := fun _ => 3

/-- A concrete position: buy-old 5, buy-today 3 (the spec's example). -/
def pos0 : Position where
  buy_old_quantity := 5
  buy_today_quantity := 3
  sell_old_quantity := 0
  sell_today_quantity := 0
  buy_quantity := 8
  sell_quantity := 0
  margin := 4
  holding_pnl := 1
  margin_rate := 1/10
  de_listed := false

/-- A concrete solvent account holding `pos0`, with trade `t1` in the guard. -/
def acct0 : FutureAccount where
  total_cash := 100
  frozen_cash := 7
  positions := [("A", pos0)]
  backward_trade_set := ["t1"]

/-- A concrete insolvent account (`total_value = -10 + 4 + 1 = -5`). -/
def acctNeg : FutureAccount where
  total_cash := -10
  frozen_cash := 0
  positions := [("A", pos0)]
  backward_trade_set := []

/-- A trade whose exec id is already recorded in `acct0`'s replay guard. -/
def trade0 : Trade where
  exec_id := "t1"
  order_book_id := "A"
  position_effect := PositionEffect.OPEN
  last_quantity := 2
  transaction_cost := 1

/-- A fresh trade filling 4 lots of the 10-lot order `ord0`. -/
def trade1 : Trade where
  exec_id := "t2"
  order_book_id := "A"
  position_effect := PositionEffect.OPEN
  last_quantity := 4
  transaction_cost := 1

/-- The spec's example order: quantity 10, filled 4, unfilled 6, opening. -/
def ord0 : Order where
  order_book_id := "A"
  quantity := 10
  filled_quantity := 4
  unfilled_quantity := 6
  frozen_price := 20
  position_effect := PositionEffect.OPEN
  active := true

/-- An order event carrying `ord0`, addressed to account "acc". -/
def ev0 : OrderEvent where
  account_id := "acc"
  order := ord0

/-! ### Helper lemmas -/

/-- A trade whose exec id is already in the replay guard leaves the account
unchanged (the first line of `_apply_trade`). -/
theorem apply_trade_mem_eq (posApply : Position → Trade → Position × ℚ)
    (newPos : String → Position) (env : Env) (t : Trade) (ord : Option Order)
    (a : FutureAccount) (h : t.exec_id ∈ a.backward_trade_set) :
    apply_trade posApply newPos env t ord a = a := by
  simp [apply_trade, h]

/-- `_apply_trade` never removes ids from the replay guard. -/
theorem apply_trade_guard_mono (posApply : Position → Trade → Position × ℚ)
    (newPos : String → Position) (env : Env) (t : Trade) (ord : Option Order)
    (a : FutureAccount) (x : String) (hx : x ∈ a.backward_trade_set) :
    x ∈ (apply_trade posApply newPos env t ord a).backward_trade_set := by
  unfold apply_trade
  by_cases h : t.exec_id ∈ a.backward_trade_set
  · rw [if_pos h]; exact hx
  · rw [if_neg h]; exact List.mem_append_left _ hx

/-- Replaying a trade list never removes ids from the replay guard. -/
theorem applyTrades_guard_mono (posApply : Position → Trade → Position × ℚ)
    (newPos : String → Position) (env : Env) (ts : List Trade) :
    ∀ (a : FutureAccount) (x : String), x ∈ a.backward_trade_set →
      x ∈ (applyTrades posApply newPos env ts a).backward_trade_set := by
  induction ts with
  | nil => intro a x hx; exact hx
  | cons t ts ih =>
    intro a x hx
    exact ih _ x (apply_trade_guard_mono posApply newPos env t none a x hx)

/-- `applyTrades` over an appended list is sequential composition. -/
theorem applyTrades_append (posApply : Position → Trade → Position × ℚ)
    (newPos : String → Position) (env : Env) (xs ys : List Trade)
    (a : FutureAccount) :
    applyTrades posApply newPos env (xs ++ ys) a =
      applyTrades posApply newPos env ys (applyTrades posApply newPos env xs a) := by
  unfold applyTrades
  exact List.foldl_append _ _ xs ys

/-- Replaying a trade already in the guard in the middle of a batch is a
no-op, so it can be dropped from the batch. -/
theorem applyTrades_middle_mem (posApply : Position → Trade → Position × ℚ)
    (newPos : String → Position) (env : Env) (xs zs : List Trade) (y : Trade)
    (a : FutureAccount) (hy : y.exec_id ∈ a.backward_trade_set) :
    applyTrades posApply newPos env (xs ++ y :: zs) a =
      applyTrades posApply newPos env (xs ++ zs) a := by
  rw [applyTrades_append, applyTrades_append]
  have hmem : y.exec_id ∈ (applyTrades posApply newPos env xs a).backward_trade_set :=
    applyTrades_guard_mono posApply newPos env xs a _ hy
  have hcons : applyTrades posApply newPos env (y :: zs)
        (applyTrades posApply newPos env xs a) =
      applyTrades posApply newPos env zs
        (apply_trade posApply newPos env y none (applyTrades posApply newPos env xs a)) := rfl
  rw [hcons, apply_trade_mem_eq posApply newPos env y none _ hmem]

/-- Unfolding one step of `applyTrades`. -/
theorem applyTrades_cons (posApply : Position → Trade → Position × ℚ)
    (newPos : String → Position) (env : Env) (t : Trade) (ts : List Trade)
    (a : FutureAccount) :
    applyTrades posApply newPos env (t :: ts) a =
      applyTrades posApply newPos env ts (apply_trade posApply newPos env t none a) := rfl

/-- Unfolding one step of the `fast_forward` scan loop. -/
theorem ffScan_cons (posApply : Position → Trade → Position × ℚ)
    (newPos : String → Position) (env : Env) (t : Trade) (ts : List Trade)
    (a : FutureAccount) (cs : List Trade) :
    ffScan posApply newPos env (t :: ts) (a, cs) =
      ffScan posApply newPos env ts
        (if t.exec_id ∈ a.backward_trade_set then (a, cs)
         else if t.position_effect = PositionEffect.OPEN then
           (apply_trade posApply newPos env t none a, cs)
         else (a, cs ++ [t])) := rfl

theorem openTrades_cons_open (t : Trade) (ts : List Trade)
    (h : t.position_effect = PositionEffect.OPEN) :
    openTrades (t :: ts) = t :: openTrades ts := by
  simp [openTrades, List.filter_cons, h]

theorem openTrades_cons_close (t : Trade) (ts : List Trade)
    (h : ¬ t.position_effect = PositionEffect.OPEN) :
    openTrades (t :: ts) = openTrades ts := by
  simp [openTrades, List.filter_cons, h]

theorem closeTrades_cons_open (t : Trade) (ts : List Trade)
    (h : t.position_effect = PositionEffect.OPEN) :
    closeTrades (t :: ts) = closeTrades ts := by
  simp [closeTrades, List.filter_cons, h]

theorem closeTrades_cons_close (t : Trade) (ts : List Trade)
    (h : ¬ t.position_effect = PositionEffect.OPEN) :
    closeTrades (t :: ts) = t :: closeTrades ts := by
  simp [closeTrades, List.filter_cons, h]

/-- Core `fast_forward` replay lemma: running the scan loop (opens applied,
closes collected) and then replaying the collected closes is the same as
replaying all OPEN trades first and all CLOSE/CLOSE_TODAY trades second. -/
theorem ffScan_apply_eq (posApply : Position → Trade → Position × ℚ)
    (newPos : String → Position) (env : Env) (ts : List Trade) :
    ∀ (a : FutureAccount) (cs : List Trade),
      applyTrades posApply newPos env (ffScan posApply newPos env ts (a, cs)).2
          (ffScan posApply newPos env ts (a, cs)).1 =
        applyTrades posApply newPos env (cs ++ closeTrades ts)
          (applyTrades posApply newPos env (openTrades ts) a) := by
  induction ts with
  | nil =>
    intro a cs
    show applyTrades posApply newPos env cs a =
      applyTrades posApply newPos env (cs ++ []) a
    rw [List.append_nil]
  | cons t ts ih =>
    intro a cs
    rw [ffScan_cons]
    by_cases hmem : t.exec_id ∈ a.backward_trade_set
    · rw [if_pos hmem, ih a cs]
      by_cases hopen : t.position_effect = PositionEffect.OPEN
      · rw [openTrades_cons_open t ts hopen, closeTrades_cons_open t ts hopen,
          applyTrades_cons, apply_trade_mem_eq posApply newPos env t none a hmem]
      · rw [openTrades_cons_close t ts hopen, closeTrades_cons_close t ts hopen,
          applyTrades_middle_mem posApply newPos env cs (closeTrades ts) t _
            (applyTrades_guard_mono posApply newPos env (openTrades ts) a _ hmem)]
    · rw [if_neg hmem]
      by_cases hopen : t.position_effect = PositionEffect.OPEN
      · rw [if_pos hopen, ih (apply_trade posApply newPos env t none a) cs,
          openTrades_cons_open t ts hopen, closeTrades_cons_open t ts hopen,
          applyTrades_cons]
      · rw [if_neg hopen, ih a (cs ++ [t]),
          openTrades_cons_close t ts hopen, closeTrades_cons_close t ts hopen,
          List.append_assoc, List.singleton_append]

/-- `order_decompose` in target mode equals delta mode at
`T - buy_quantity + sell_quantity` (the first lines of `order`). -/
theorem order_decompose_target_eq (order_book_id : String) (position : Position)
    (T : ℚ) (style : ℕ) :
    order_decompose order_book_id position T style true =
      order_decompose order_book_id position
        (T - position.buy_quantity + position.sell_quantity) style false := rfl

/-- `marginChangeOf` agrees with the claim's pro-rated difference on entries
whose rate differs beyond tolerance. -/
theorem marginChangeOf_of_differs (e : String × PosSnapshot)
    (h : snapRateDiffers e = true) : marginChangeOf e = snapProRate e := by
  unfold marginChangeOf snapProRate
  unfold snapRateDiffers at h
  cases hr : e.2.snap_margin_rate with
  | none => simp [hr] at h
  | some r =>
    simp only [hr] at h ⊢
    rw [if_pos (of_decide_eq_true h)]

/-- `marginChangeOf` vanishes on entries whose rate agrees within tolerance. -/
theorem marginChangeOf_of_close (e : String × PosSnapshot)
    (h : snapRateDiffers e = false) : marginChangeOf e = 0 := by
  unfold marginChangeOf
  unfold snapRateDiffers at h
  cases hr : e.2.snap_margin_rate with
  | none => simp [hr]
  | some r =>
    simp only [hr] at h ⊢
    rw [if_neg (of_decide_eq_false h)]

/-- The accumulated `margin_changed` equals the claim's sum over the entries
whose recorded rate differs beyond tolerance. -/
theorem marginChange_sum_eq (l : List (String × PosSnapshot)) :
    (l.map marginChangeOf).sum = ((l.filter snapRateDiffers).map snapProRate).sum := by
  induction l with
  | nil => rfl
  | cons e l ih =>
    simp only [List.map_cons, List.sum_cons, List.filter_cons]
    by_cases h : snapRateDiffers e = true
    · rw [if_pos h, List.map_cons, List.sum_cons, ih, marginChangeOf_of_differs e h]
    · rw [if_neg h, ih, marginChangeOf_of_close e (by simpa using h)]
      ring

/-- The net-buying branch of `order` emits exactly the legs the spec
describes, given non-negative sell buckets. -/
theorem order_decompose_buy_eq (order_book_id : String) (position : Position)
    (q : ℚ) (style : ℕ) (hso : 0 ≤ position.sell_old_quantity)
    (hst : 0 ≤ position.sell_today_quantity) (hq : 0 < q) :
    order_decompose order_book_id position q style false =
      orderSpecBuy order_book_id position q style := by
  simp only [order_decompose, orderSpecBuy, if_neg Bool.false_ne_true, if_pos hq]
  rcases hso.lt_or_eq with h1 | h1
  · rcases le_or_lt q position.sell_old_quantity with h2 | h2
    · -- 0 < sell_old and q ≤ sell_old: single CLOSE leg absorbs everything
      have hm1 : min q position.sell_old_quantity = q := min_eq_left h2
      have h2n : q - position.sell_old_quantity ≤ 0 := by linarith
      have hm2 : min (0:ℚ) position.sell_today_quantity = 0 := min_eq_left hst
      simp [h1, h2n, hm1, hm2]
    · -- 0 < sell_old < q
      have hm1 : min q position.sell_old_quantity = position.sell_old_quantity :=
        min_eq_right h2.le
      have h2n : ¬ (q - position.sell_old_quantity ≤ 0) := by linarith
      have h2p : 0 < q - position.sell_old_quantity := by linarith
      rcases hst.lt_or_eq with h3 | h3
      · rcases le_or_lt (q - position.sell_old_quantity)
            position.sell_today_quantity with h4 | h4
        · -- CLOSE + CLOSE_TODAY absorb everything
          have hm4 : min (q - position.sell_old_quantity)
              position.sell_today_quantity = q - position.sell_old_quantity :=
            min_eq_left h4
          have h4n : q - position.sell_old_quantity -
              position.sell_today_quantity ≤ 0 := by linarith
          simp [h1, h2n, h2p, h3, h4n, hm1, hm4]
        · -- CLOSE + CLOSE_TODAY + OPEN
          have hm4 : min (q - position.sell_old_quantity)
              position.sell_today_quantity = position.sell_today_quantity :=
            min_eq_right h4.le
          have h4n : ¬ (q - position.sell_old_quantity -
              position.sell_today_quantity ≤ 0) := by linarith
          simp [h1, h2n, h2p, h3, h4, h4n, hm1, hm4]
      · -- sell_today = 0: CLOSE + OPEN
        rw [← h3]
        have hm4 : min (q - position.sell_old_quantity) (0:ℚ) = 0 :=
          min_eq_right (by linarith)
        simp [h1, h2n, h2p, hm1, hm4]
  · -- sell_old = 0
    rw [← h1]
    have hqn : ¬ (q ≤ 0) := by linarith
    have hm0 : min q (0:ℚ) = 0 := min_eq_right hq.le
    rcases hst.lt_or_eq with h3 | h3
    · rcases le_or_lt q position.sell_today_quantity with h4 | h4
      · -- CLOSE_TODAY absorbs everything
        have hm5 : min q position.sell_today_quantity = q := min_eq_left h4
        have h4n : q - position.sell_today_quantity ≤ 0 := by linarith
        simp [hq, hqn, h3, h4n, hm0, hm5]
      · -- CLOSE_TODAY + OPEN
        have hm5 : min q position.sell_today_quantity =
            position.sell_today_quantity := min_eq_right h4.le
        have h4n : ¬ (q - position.sell_today_quantity ≤ 0) := by linarith
        simp [hq, hqn, h3, h4, h4n, hm0, hm5]
    · -- both sell buckets empty: single OPEN leg
      rw [← h3]
      simp [hq, hqn, hm0]

/-- The net-selling branch of `order` (negative requested quantity) emits
exactly the mirrored legs the spec describes, given non-negative buy
buckets. -/
theorem order_decompose_sell_eq (order_book_id : String) (position : Position)
    (q : ℚ) (style : ℕ) (hbo : 0 ≤ position.buy_old_quantity)
    (hbt : 0 ≤ position.buy_today_quantity) (hq : 0 < q) :
    order_decompose order_book_id position (-q) style false =
      orderSpecSell order_book_id position q style := by
  have hneg : ¬ (0 < -q) := by linarith
  simp only [order_decompose, orderSpecSell, if_neg Bool.false_ne_true,
    if_neg hneg, neg_neg]
  rcases hbo.lt_or_eq with h1 | h1
  · rcases le_or_lt q position.buy_old_quantity with h2 | h2
    · -- 0 < buy_old and q ≤ buy_old: single CLOSE leg absorbs everything
      have hm1 : min q position.buy_old_quantity = q := min_eq_left h2
      have hm2 : min (0:ℚ) position.buy_today_quantity = 0 := min_eq_left hbt
      simp [h1, hm1, hm2]
    · -- 0 < buy_old < q
      have hm1 : min q position.buy_old_quantity = position.buy_old_quantity :=
        min_eq_right h2.le
      have h2n : ¬ (q - position.buy_old_quantity ≤ 0) := by linarith
      have h2p : 0 < q - position.buy_old_quantity := by linarith
      rcases hbt.lt_or_eq with h3 | h3
      · rcases le_or_lt (q - position.buy_old_quantity)
            position.buy_today_quantity with h4 | h4
        · -- CLOSE + CLOSE_TODAY absorb everything
          have hm4 : min (q - position.buy_old_quantity)
              position.buy_today_quantity = q - position.buy_old_quantity :=
            min_eq_left h4
          have h4n : q - position.buy_old_quantity -
              position.buy_today_quantity ≤ 0 := by linarith
          simp [h1, h2n, h2p, h3, h4n, hm1, hm4]
        · -- CLOSE + CLOSE_TODAY + OPEN
          have hm4 : min (q - position.buy_old_quantity)
              position.buy_today_quantity = position.buy_today_quantity :=
            min_eq_right h4.le
          have h4n : ¬ (q - position.buy_old_quantity -
              position.buy_today_quantity ≤ 0) := by linarith
          simp [h1, h2n, h2p, h3, h4, h4n, hm1, hm4]
      · -- buy_today = 0: CLOSE + OPEN
        rw [← h3]
        have hm4 : min (q - position.buy_old_quantity) (0:ℚ) = 0 :=
          min_eq_right (by linarith)
        simp [h1, h2n, h2p, hm1, hm4]
  · -- buy_old = 0
    rw [← h1]
    have hqn : ¬ (q ≤ 0) := by linarith
    have hm0 : min q (0:ℚ) = 0 := min_eq_right hq.le
    rcases hbt.lt_or_eq with h3 | h3
    · rcases le_or_lt q position.buy_today_quantity with h4 | h4
      · -- CLOSE_TODAY absorbs everything
        have hm5 : min q position.buy_today_quantity = q := min_eq_left h4
        have h4n : q - position.buy_today_quantity ≤ 0 := by linarith
        simp [hq, hqn, h3, h4n, hm0, hm5]
      · -- CLOSE_TODAY + OPEN
        have hm5 : min q position.buy_today_quantity =
            position.buy_today_quantity := min_eq_right h4.le
        have h4n : ¬ (q - position.buy_today_quantity ≤ 0) := by linarith
        simp [hq, hqn, h3, h4, h4n, hm0, hm5]
    · -- both buy buckets empty: single OPEN leg
      rw [← h3]
      simp [hq, hqn, hm0]

/-! ### Claim theorems -/

/-- C1: one settlement in which the insolvency wipeout does not fire (pre-roll
`total_value > 0` or forced liquidation disabled) conserves equity: the
post-settlement `total_cash + margin + holding_pnl` equals the pre-settlement
`total_value`, and `total_cash` is re-derived as the pre-roll `total_value`
minus post-roll margin minus post-roll holding pnl. -/
theorem settlement_conservation (applySettle : Position → Position)
    (forced_liquidation : Bool) (a : FutureAccount)
    (h : 0 < total_value a ∨ forced_liquidation = false) :
    total_value (settlement applySettle forced_liquidation a) = total_value a ∧
    (settlement applySettle forced_liquidation a).total_cash =
      total_value a - marginSum (settleRoll applySettle a.positions) -
        holdingPnlSum (settleRoll applySettle a.positions) := by
  have hcond : ¬ (total_value a ≤ 0 ∧ forced_liquidation = true) := by
    rintro ⟨h1, h2⟩
    rcases h with h | h
    · linarith
    · rw [h] at h2; exact Bool.false_ne_true h2
  simp only [settlement]
  rw [if_neg hcond]
  refine ⟨?_, rfl⟩
  simp only [total_value]
  ring

/-- C1 witness: a concrete solvent account conserves equity across
settlement. -/
theorem settlement_conservation_witness :
    0 < total_value acct0 ∧
    (total_value (settlement id true acct0) = total_value acct0 ∧
     (settlement id true acct0).total_cash =
       total_value acct0 - marginSum (settleRoll id acct0.positions) -
         holdingPnlSum (settleRoll id acct0.positions)) :=
  ⟨by norm_num [total_value, marginSum, holdingPnlSum, acct0, pos0],
   settlement_conservation id true acct0
     (Or.inl (by norm_num [total_value, marginSum, holdingPnlSum, acct0, pos0]))⟩

/-- C2: applying a trade whose exec id is already in the replay guard (with or
without an accompanying order) leaves the whole account state bit-identical. -/
theorem apply_trade_idempotent_guard (posApply : Position → Trade → Position × ℚ)
    (newPos : String → Position) (env : Env) (t : Trade) (ord : Option Order)
    (a : FutureAccount) (h : t.exec_id ∈ a.backward_trade_set) :
    apply_trade posApply newPos env t ord a = a :=
  apply_trade_mem_eq posApply newPos env t ord a h

/-- C2 witness: replaying trade `t1` into `acct0` is a no-op. -/
theorem apply_trade_idempotent_guard_witness :
    trade0.exec_id ∈ acct0.backward_trade_set ∧
    apply_trade (fun p _ => (p, 0)) (fun _ => pos0) env0 trade0 (some ord0) acct0 =
      acct0 :=
  ⟨by decide,
   apply_trade_idempotent_guard (fun p _ => (p, 0)) (fun _ => pos0) env0 trade0
     (some ord0) acct0 (by decide)⟩

/-- C3: for every positive requested quantity, `order` emits child orders in
the fixed close-old → close-today → open precedence, with the leg quantities
and stopping rule the spec describes, in both directions (the positive branch
closes the sell buckets; the mirrored negative branch closes the buy
buckets). -/
theorem order_decomposition_spec (order_book_id : String) (position : Position)
    (q : ℚ) (style : ℕ) (hso : 0 ≤ position.sell_old_quantity)
    (hst : 0 ≤ position.sell_today_quantity)
    (hbo : 0 ≤ position.buy_old_quantity)
    (hbt : 0 ≤ position.buy_today_quantity) (hq : 0 < q) :
    order_decompose order_book_id position q style false =
      orderSpecBuy order_book_id position q style ∧
    order_decompose order_book_id position (-q) style false =
      orderSpecSell order_book_id position q style :=
  ⟨order_decompose_buy_eq order_book_id position q style hso hst hq,
   order_decompose_sell_eq order_book_id position q style hbo hbt hq⟩

/-- C3 witness: the spec's examples — buy-old 5, buy-today 3; sell intent 6
yields [CLOSE 5, CLOSE_TODAY 1] with no OPEN leg, and sell intent 10 yields
[CLOSE 5, CLOSE_TODAY 3, OPEN 2]. -/
theorem order_decomposition_spec_witness :
    order_decompose "A" pos0 (-6) 0 false =
      [⟨"A", 5, Side.SELL, PositionEffect.CLOSE, 0⟩,
       ⟨"A", 1, Side.SELL, PositionEffect.CLOSE_TODAY, 0⟩] ∧
    order_decompose "A" pos0 (-10) 0 false =
      [⟨"A", 5, Side.SELL, PositionEffect.CLOSE, 0⟩,
       ⟨"A", 3, Side.SELL, PositionEffect.CLOSE_TODAY, 0⟩,
       ⟨"A", 2, Side.SELL, PositionEffect.OPEN, 0⟩] := by
  constructor
  · rw [(order_decomposition_spec "A" pos0 6 0 (by norm_num [pos0])
      (by norm_num [pos0]) (by norm_num [pos0]) (by norm_num [pos0])
      (by norm_num)).2]
    norm_num [orderSpecSell, pos0]
  · rw [(order_decomposition_spec "A" pos0 10 0 (by norm_num [pos0])
      (by norm_num [pos0]) (by norm_num [pos0]) (by norm_num [pos0])
      (by norm_num)).2]
    norm_num [orderSpecSell, pos0]

/-- C4: settlement of an account with pre-roll `total_value ≤ 0`, with forced
liquidation enabled, empties the positions and zeroes `total_cash`. -/
theorem settlement_wipeout (applySettle : Position → Position) (a : FutureAccount)
    (h : total_value a ≤ 0) :
    (settlement applySettle true a).positions = [] ∧
    (settlement applySettle true a).total_cash = 0 := by
  simp only [settlement]
  rw [if_pos ⟨h, trivial⟩]
  exact ⟨rfl, rfl⟩

/-- C4 witness: the concrete insolvent account is wiped out at settlement. -/
theorem settlement_wipeout_witness :
    total_value acctNeg ≤ 0 ∧
    ((settlement id true acctNeg).positions = [] ∧
     (settlement id true acctNeg).total_cash = 0) :=
  ⟨by norm_num [total_value, marginSum, holdingPnlSum, acctNeg, pos0],
   settlement_wipeout id acctNeg
     (by norm_num [total_value, marginSum, holdingPnlSum, acctNeg, pos0])⟩

/-- C5: after `fast_forward(orders, trades)` the account's `frozen_cash`
equals the sum of `_frozen_cash_of_order` over the active orders, independent
of the prior `frozen_cash` (the sum does not mention it); and the replayed
batch applies every OPEN trade before any CLOSE/CLOSE_TODAY trade, regardless
of arrival order. -/
theorem fast_forward_spec (posApply : Position → Trade → Position × ℚ)
    (newPos : String → Position) (env : Env) (orders : List Order)
    (trades : List Trade) (a : FutureAccount) :
    (fast_forward posApply newPos env orders trades a).frozen_cash =
      ((orders.filter (fun o => o.active)).map (frozen_cash_of_order env)).sum ∧
    fast_forward posApply newPos env orders trades a =
      { applyTrades posApply newPos env (closeTrades trades)
          (applyTrades posApply newPos env (openTrades trades) a) with
        frozen_cash :=
          ((orders.filter (fun o => o.active)).map (frozen_cash_of_order env)).sum } := by
  refine ⟨rfl, ?_⟩
  simp only [fast_forward]
  have h := ffScan_apply_eq posApply newPos env trades a []
  rw [List.nil_append] at h
  rw [h]

/-- C6: an unsolicited order update addressed to this account releases the
unfilled fraction `unfilled_quantity / quantity` of the reservation when the
order is partly filled, and the full reservation otherwise. -/
theorem on_order_unsolicited_release (env : Env) (self_id : String)
    (e : OrderEvent) (a : FutureAccount) (haddr : e.account_id = self_id) :
    (e.order.filled_quantity ≠ 0 →
      (on_order_unsolicited_update env self_id e a).frozen_cash =
        a.frozen_cash -
          e.order.unfilled_quantity / e.order.quantity *
            frozen_cash_of_order env e.order) ∧
    (e.order.filled_quantity = 0 →
      (on_order_unsolicited_update env self_id e a).frozen_cash =
        a.frozen_cash - frozen_cash_of_order env e.order) := by
  constructor
  · intro hf
    simp [on_order_unsolicited_update, haddr, hf]
  · intro hf
    simp [on_order_unsolicited_update, haddr, hf]

/-- C6 witness: the order of quantity 10 reserving cost `C`, filled 4 then
rejected, releases exactly `0.6 * C`. -/
theorem on_order_unsolicited_release_witness :
    ev0.order.filled_quantity ≠ 0 ∧
    (on_order_unsolicited_update env0 "acc" ev0 acct0).frozen_cash =
      acct0.frozen_cash - (6/10) * frozen_cash_of_order env0 ev0.order := by
  refine ⟨by norm_num [ev0, ord0], ?_⟩
  rw [(on_order_unsolicited_release env0 "acc" ev0 acct0 rfl).1
    (by norm_num [ev0, ord0])]
  norm_num [ev0, ord0]

/-- C7: applying a non-duplicate trade together with its originating order
releases frozen cash in the fill fraction `last_quantity / order.quantity`
when the fill is partial, and the full reservation when the order is filled
exactly. -/
theorem apply_trade_release (posApply : Position → Trade → Position × ℚ)
    (newPos : String → Position) (env : Env) (t : Trade) (o : Order)
    (a : FutureAccount) (hdup : t.exec_id ∉ a.backward_trade_set) :
    (t.last_quantity ≠ o.quantity →
      (apply_trade posApply newPos env t (some o) a).frozen_cash =
        a.frozen_cash - t.last_quantity / o.quantity * frozen_cash_of_order env o) ∧
    (t.last_quantity = o.quantity →
      (apply_trade posApply newPos env t (some o) a).frozen_cash =
        a.frozen_cash - frozen_cash_of_order env o) := by
  constructor
  · intro hne
    simp [apply_trade, hdup, hne]
  · intro heq
    simp [apply_trade, hdup, heq]

/-- C7 witness: trade of 4 lots against the 10-lot order `ord0` releases the
fill fraction `4/10` of the reservation. -/
theorem apply_trade_release_witness :
    trade1.exec_id ∉ acct0.backward_trade_set ∧
    (apply_trade (fun p _ => (p, 0)) (fun _ => pos0) env0 trade1 (some ord0)
        acct0).frozen_cash =
      acct0.frozen_cash - (4/10) * frozen_cash_of_order env0 ord0 := by
  refine ⟨by simp [trade1, acct0], ?_⟩
  rw [(apply_trade_release (fun p _ => (p, 0)) (fun _ => pos0) env0 trade1 ord0
    acct0 (by simp [trade1, acct0])).1 (by norm_num [trade1, ord0])]
  norm_num [trade1, ord0]

/-- C8: target mode is delta mode at `T - net_position`, where `net_position =
buy_quantity - sell_quantity`. -/
theorem order_target_equiv (order_book_id : String) (position : Position)
    (T : ℚ) (style : ℕ) :
    order_decompose order_book_id position T style true =
      order_decompose order_book_id position
        (T - (position.buy_quantity - position.sell_quantity)) style false := by
  rw [order_decompose_target_eq]
  have h : T - position.buy_quantity + position.sell_quantity =
      T - (position.buy_quantity - position.sell_quantity) := by ring
  rw [h]

/-- C9: `set_state` restores `frozen_cash` and the replay guard exactly, and
sets `total_cash` to the snapshot's cash plus the pro-rated margin differences
of the positions whose recorded rate differs beyond the 1e-6 tolerance. -/
theorem set_state_restore (snap : AccountSnapshot) :
    (set_state snap).frozen_cash = snap.frozen_cash ∧
    (set_state snap).backward_trade_set = snap.backward_trade_set ∧
    (set_state snap).total_cash =
      snap.total_cash + ((snap.positions.filter snapRateDiffers).map snapProRate).sum := by
  refine ⟨rfl, rfl, ?_⟩
  show snap.total_cash + (snap.positions.map marginChangeOf).sum = _
  rw [marginChange_sum_eq]

/-- C10: with a nonzero buy-old bucket, a zero-quantity order (or target mode
at the current net position) is routed to the net-selling branch and yields a
single SELL CLOSE child order of quantity `min 0 buy_old = 0`. -/
theorem order_zero_quantity_close_leg (order_book_id : String)
    (position : Position) (style : ℕ) (h : 0 < position.buy_old_quantity) :
    order_decompose order_book_id position 0 style false =
      [⟨order_book_id, 0, Side.SELL, PositionEffect.CLOSE, style⟩] ∧
    order_decompose order_book_id position
        (position.buy_quantity - position.sell_quantity) style true =
      [⟨order_book_id, 0, Side.SELL, PositionEffect.CLOSE, style⟩] := by
  have hmin : min (0:ℚ) position.buy_old_quantity = 0 := min_eq_left h.le
  have main : order_decompose order_book_id position 0 style false =
      [⟨order_book_id, 0, Side.SELL, PositionEffect.CLOSE, style⟩] := by
    norm_num [order_decompose, h, hmin]
  refine ⟨main, ?_⟩
  rw [order_decompose_target_eq]
  have h0 : position.buy_quantity - position.sell_quantity -
      position.buy_quantity + position.sell_quantity = (0:ℚ) := by ring
  rw [h0]
  exact main

/-- C10 witness: the example position (buy-old 5) with quantity 0. -/
theorem order_zero_quantity_close_leg_witness :
    0 < pos0.buy_old_quantity ∧
    order_decompose "A" pos0 0 0 false =
      [⟨"A", 0, Side.SELL, PositionEffect.CLOSE, 0⟩] :=
  ⟨by norm_num [pos0],
   (order_zero_quantity_close_leg "A" pos0 0 (by norm_num [pos0])).1⟩

end RQ
